import Mathlib

/-!
# xmlui-mcp, `util.go`: the output and error-reporting helpers

`util.go` holds three functions, `must`, `fprintf` and `fprintln`, each a
one-line call into Go's package `fmt` whose two results are dropped.

The embedding has three layers.

* Values and text: a Go string is the sequence of its characters
  (`GoString`), an argument of type `any` is a `GoValue` (the untyped nil, a
  `bool`, an `int`, a `string`), an `error` is `GoError`: nil, or a value
  with its `Error()` method, a call of which returns a message or panics.
* Package `fmt`: `printArg`, `doPrintf`, `doPrintln`, `Sprintf`, `Fprintf`,
  `Fprintln`. Package `fmt` is not part of the repository; it is modelled
  after the Go standard library for the verbs `%v %s %d %t %T` and `%%`
  without flags, width, precision or argument index. What the formatter does
  outside that fragment is a parameter of the model (`Unmodelled`).
* The repository: `must`, `fprintf`, `fprintln`, over a destination that is a
  state together with its `Write` method.
-/

namespace XmluiMcp

/-! ## Values and text -/

/-- A Go string, as the sequence of its characters. -/
abbrev GoString := List Char

/-- How a call of a method ends: it returns a value, or it panics with a
value (given as its text). -/
inductive Call (α : Type) where
  | returns (value : α) : Call α
  | panics (value : GoString) : Call α
  deriving DecidableEq, Repr

/-- A non-nil value of the interface type `error`: what a call of its
`Error()` method does. The method of `errors.New(m)` returns `m`; the method
of a nil `*os.PathError` held in the interface panics on the nil pointer. -/
structure ErrorValue where
  Error : Call GoString
  deriving DecidableEq, Repr

/-- A Go `error` value: `none` is `nil`, `some e` is a non-nil error. -/
abbrev GoError := Option ErrorValue

/-- The non-nil error whose `Error()` method returns the message `m`. -/
def failure (m : GoString) : GoError :=
  some { Error := Call.returns m }

/-- The text of the run-time panic for a read through a nil pointer. -/
def nilDereference : GoString :=
  "runtime error: invalid memory address or nil pointer dereference".toList

/-- A non-nil error whose `Error()` method panics: a nil `*os.PathError` held
in the interface, whose method reads a field through the nil pointer. -/
def nilPathError : GoError :=
  some { Error := Call.panics nilDereference }

/-- How a call of a function without results ends as seen by its caller: it
returns, or a panic raised inside it reaches the caller. -/
inductive Completion where
  | returned : Completion
  | panicked (value : GoString) : Completion
  deriving DecidableEq, Repr

/-- An argument passed as `any`: the untyped `nil`, a `bool`, an `int` or a
`string`. -/
inductive GoValue where
  | nil : GoValue
  | bool (b : Bool) : GoValue
  | int (i : Int) : GoValue
  | string (s : GoString) : GoValue
  deriving DecidableEq, Repr

/-! ## Destinations (`io.Writer`) -/

/-- The outcome of one call of `Write`: the destination afterwards, the
count `n` and the error `err` that the method returns. -/
structure WriteResult (σ : Type) where
  dest : σ
  n : Nat
  err : GoError

/-- An `io.Writer` whose state has type `σ`: its `Write` method. -/
structure Writer (σ : Type) where
  Write : σ → GoString → WriteResult σ

/-- The number of bytes of a text in UTF-8. -/
def byteLen (p : GoString) : Nat :=
  (p.map Char.utf8Size).sum

/-- A destination that keeps everything it is given, like `bytes.Buffer`:
the state is the content accepted so far. -/
def bytesBuffer : Writer GoString where
  Write := fun content p => { dest := content ++ p, n := byteLen p, err := none }

/-- A destination that records each call of `Write` separately: the state is
the list of the texts passed to `Write`, in call order. -/
def recorder : Writer (List GoString) where
  Write := fun calls p => { dest := calls ++ [p], n := byteLen p, err := none }

/-- A destination that accepts nothing, like a closed file: every `Write`
returns `0` and an error and leaves the state as it was. -/
def closedFile : Writer GoString where
  Write := fun content _ =>
    { dest := content, n := 0, err := failure "file already closed".toList }

/-- The streams of the process: standard error, and all the others. -/
structure Process (σ ρ : Type) where
  Stderr : σ
  others : ρ

/-! ## Package `fmt` -/

/-- Modelled from the spec: `reflect.TypeOf(arg).String()` of package `reflect`,
which the repository does not contain; the name of the dynamic type of an
argument. -/
def typeName : GoValue → GoString
  | .nil => "<nil>".toList
  | .bool _ => "bool".toList
  | .int _ => "int".toList
  | .string _ => "string".toList

/-- Modelled from the spec: `fmt.fmtBoolean`, which the repository does not
contain. -/
def fmtBoolean (b : Bool) : GoString :=
  if b then "true".toList else "false".toList

/-- Modelled from the spec: `fmt.fmtInteger` in base 10 without flags, which the
repository does not contain; a sign for a negative number, then the decimal
digits. -/
def fmtInteger (i : Int) : GoString :=
  if i < 0 then '-' :: Nat.toDigits 10 i.natAbs else Nat.toDigits 10 i.natAbs

/-- Modelled from the spec: the default format (`%v`) of an argument in
package `fmt`, which the repository does not contain. -/
def defaultFormat : GoValue → GoString
  | .nil => "<nil>".toList
  | .bool b => fmtBoolean b
  | .int i => fmtInteger i
  | .string s => s

/-- Modelled from the spec: `(*pp).badVerb` of package `fmt`, which the
repository does not contain: `%!verb(type=value)`, or `%!verb(<nil>)` for
the nil argument. -/
def badVerb (verb : Char) (arg : GoValue) : GoString :=
  "%!".toList ++ [verb] ++ ['('] ++
    (match arg with
     | .nil => "<nil>".toList
     | a => typeName a ++ ['='] ++ defaultFormat a) ++ [')']

/-- Modelled from the spec: `(*pp).printArg` of package `fmt`, which the
repository does not contain, for the verbs `v s d t T` and no flags. The nil
argument prints as `<nil>` under `%T` and `%v`; `%T` prints the type;
otherwise each kind of value accepts its own verbs and answers the others
with `badVerb`. -/
def printArg (arg : GoValue) (verb : Char) : GoString :=
  match arg with
  | .nil => if verb = 'T' ∨ verb = 'v' then "<nil>".toList else badVerb verb arg
  | .bool b =>
    if verb = 'T' then typeName arg
    else if verb = 't' ∨ verb = 'v' then fmtBoolean b
    else badVerb verb arg
  | .int i =>
    if verb = 'T' then typeName arg
    else if verb = 'v' ∨ verb = 'd' then fmtInteger i
    else badVerb verb arg
  | .string s =>
    if verb = 'T' then typeName arg
    else if verb = 'v' ∨ verb = 's' then s
    else badVerb verb arg

/-- The verbs of the modelled fragment (besides `%%`). -/
def modelledVerb (c : Char) : Bool :=
  c = 'v' || c = 's' || c = 'd' || c = 't' || c = 'T'

/-- Modelled from the spec: `(*pp).missingArg` of package `fmt`, which the
repository does not contain. -/
def missingArg (verb : Char) : GoString :=
  "%!".toList ++ [verb] ++ "(MISSING)".toList

/-- The text for a format that ends in a lone `%`. -/
def noVerbString : GoString := "%!(NOVERB)".toList

/-- Put a text in front of the output of the rest of the scan. -/
def emit (out : GoString) (r : Option (GoString × List GoValue)) :
    Option (GoString × List GoValue) :=
  r.map fun q => (out ++ q.1, q.2)

/-- Modelled from the spec: the format loop of `(*pp).doPrintf` of package
`fmt`, which the repository does not contain. It copies the text up to the
next `%`, then handles one verb: `%%` writes a `%` and takes no argument, a
verb with no argument left writes `missingArg`, any other verb prints the
next argument. The result is the text written and the arguments not yet used
(`a[argNum:]`); it is `none` when the format leaves the modelled fragment. -/
def doPrintfLoop : List Char → List GoValue → Option (GoString × List GoValue)
  | [], a => some ([], a)
  | [c], a => if c = '%' then some (noVerbString, a) else some ([c], a)
  | c :: verb :: rest, a =>
    if c ≠ '%' then emit [c] (doPrintfLoop (verb :: rest) a)
    else if verb = '%' then emit ['%'] (doPrintfLoop rest a)
    else if modelledVerb verb then
      match a with
      | [] => emit (missingArg verb) (doPrintfLoop rest [])
      | arg :: more => emit (printArg arg verb) (doPrintfLoop rest more)
    else none

/-- Modelled from the spec: the list inside `%!(EXTRA ...)` of `(*pp).doPrintf`,
which the repository does not contain: the unused arguments as `type=value`
(`<nil>` for nil), separated by a comma and a space. -/
def extraList : Nat → List GoValue → GoString
  | _, [] => []
  | i, arg :: more =>
    (if i > 0 then ", ".toList else []) ++
    (match arg with
     | .nil => "<nil>".toList
     | a => typeName a ++ ['='] ++ printArg a 'v') ++
    extraList (i + 1) more

/-- Modelled from the spec: `(*pp).doPrintf` of package `fmt`, which the
repository does not contain: the format loop, then the report of the
arguments left over. -/
def doPrintf (format : GoString) (a : List GoValue) : Option GoString :=
  match doPrintfLoop format a with
  | none => none
  | some (buf, []) => some buf
  | some (buf, left) => some (buf ++ "%!(EXTRA ".toList ++ extraList 0 left ++ [')'])

/-- Modelled from the spec: the loop of `(*pp).doPrintln` of package `fmt`,
which the repository does not contain: for each argument, a space when it is
not the first, then the argument under `%v`. -/
def doPrintlnLoop : Nat → List GoValue → GoString → GoString
  | _, [], buf => buf
  | argNum, arg :: more, buf =>
    let buf := if argNum > 0 then buf ++ [' '] else buf
    doPrintlnLoop (argNum + 1) more (buf ++ printArg arg 'v')

/-- Modelled from the spec: `(*pp).doPrintln` of package `fmt`, which the
repository does not contain: the loop over the arguments, then a newline. -/
def doPrintln (a : List GoValue) : GoString :=
  doPrintlnLoop 0 a [] ++ ['\n']

/-- What the formatter produces for the formats outside the modelled
fragment: kept abstract, as a function of the format and the arguments. -/
abbrev Unmodelled := GoString → List GoValue → GoString

/-- Modelled from the spec: `fmt.Sprintf`, which the repository does not
contain: the text that `doPrintf` leaves in the buffer. -/
def Sprintf (lib : Unmodelled) (format : GoString) (a : List GoValue) : GoString :=
  match doPrintf format a with
  | some text => text
  | none => lib format a

/-- Modelled from the spec: `fmt.Sprintln`, which the repository does not
contain. -/
def Sprintln (a : List GoValue) : GoString :=
  doPrintln a

/-- Modelled from the spec: `fmt.Fprintf`, which the repository does not
contain: format into the buffer, then one call `w.Write(p.buf)`, whose
results are returned. -/
def Fprintf {σ : Type} (lib : Unmodelled) (w : Writer σ) (dest : σ)
    (format : GoString) (a : List GoValue) : WriteResult σ :=
  w.Write dest (Sprintf lib format a)

/-- Modelled from the spec: `fmt.Fprintln`, which the repository does not
contain: format into the buffer, then one call `w.Write(p.buf)`, whose
results are returned. -/
def Fprintln {σ : Type} (w : Writer σ) (dest : σ) (a : List GoValue) : WriteResult σ :=
  w.Write dest (Sprintln a)

/-! ## `util.go` -/

/-- `must` of `util.go`: when `err` is not nil, `fmt.Fprintf(os.Stderr,
"ERROR: %s", err.Error())` with both results dropped; nothing otherwise.
The operand `err.Error()` is evaluated by `must` itself before the call of
`fmt.Fprintf`: when the method panics nothing is written and, `must` having
no `recover`, the panic reaches the caller. `stderrFile` is the `Write`
method of `os.Stderr`. The result is the process after the call and how the
call ended. -/
def must {σ ρ : Type} (lib : Unmodelled) (stderrFile : Writer σ) (err : GoError)
    (p : Process σ ρ) : Process σ ρ × Completion :=
  match err with
  | some e =>
    match e.Error with
    | Call.returns m =>
      let r := Fprintf lib stderrFile p.Stderr "ERROR: %s".toList [GoValue.string m]
      ({ p with Stderr := r.dest }, Completion.returned)
    | Call.panics value => (p, Completion.panicked value)
  | none => (p, Completion.returned)

/-- `fprintf` of `util.go`: `fmt.Fprintf(w, format, args...)` with both
results dropped. -/
def fprintf {σ : Type} (lib : Unmodelled) (w : Writer σ) (dest : σ)
    (format : GoString) (args : List GoValue) : σ × Unit :=
  let r := Fprintf lib w dest format args
  (r.dest, ())

/-- `fprintln` of `util.go`: `fmt.Fprintln(w, args...)` with both results
dropped. -/
def fprintln {σ : Type} (w : Writer σ) (dest : σ) (args : List GoValue) : σ × Unit :=
  let r := Fprintln w dest args
  (r.dest, ())

end XmluiMcp


namespace XmluiMcp

/-! ## The words of the specification -/

/-- The string representation of one argument, `fmt.Sprint(a)`: the argument
under the default verb. -/
def str (a : GoValue) : GoString :=
  printArg a 'v'

/-- Texts joined by a single space between each adjacent pair. -/
def joinBySpace (texts : List GoString) : GoString :=
  List.intercalate [' '] texts

/-- The line of the specification: the string representations of the
arguments joined by single spaces, followed by one line terminator. -/
def specLine (args : List GoValue) : GoString :=
  joinBySpace (args.map str) ++ ['\n']

/-- The template of `n` default placeholders `%v` joined by single spaces
and followed by a newline. -/
def defaultTemplate (n : Nat) : GoString :=
  joinBySpace (List.replicate n "%v".toList) ++ ['\n']

/-- A text is one complete line: it ends with a line terminator and holds no
other. -/
def isCompleteLine (text : GoString) : Bool :=
  text.getLast? = some '\n' && !(text.dropLast.contains '\n')

/-- A piece of a template: a character of literal text, the escaped percent
sign `%%`, or a placeholder marker `%` followed by its verb. -/
inductive Piece where
  | text (c : Char) : Piece
  | percent : Piece
  | placeholder (verb : Char) : Piece
  deriving DecidableEq, Repr

/-- The pieces of a template, read from left to right; `none` for a template
that ends in a lone `%` or whose marker is outside the fragment. -/
def pieces : GoString → Option (List Piece)
  | [] => some []
  | [c] => if c = '%' then none else some [Piece.text c]
  | c :: d :: rest =>
    if c ≠ '%' then (pieces (d :: rest)).map (Piece.text c :: ·)
    else if d = '%' then (pieces rest).map (Piece.percent :: ·)
    else if modelledVerb d then (pieces rest).map (Piece.placeholder d :: ·)
    else none

/-- A placeholder accepts an argument: `%v` and `%T` accept every argument,
`%s` a string, `%d` an int, `%t` a bool. -/
def accepts (verb : Char) (arg : GoValue) : Bool :=
  verb = 'v' || verb = 'T' ||
    (match arg with
     | .nil => false
     | .bool _ => verb = 't'
     | .int _ => verb = 'd'
     | .string _ => verb = 's')

/-- The text that stands for an argument at a placeholder that accepts it:
the name of its type under `%T`, its string representation otherwise. -/
def display (verb : Char) (arg : GoValue) : GoString :=
  if verb = 'T' then typeName arg else str arg

/-- Positional substitution: each placeholder, in order, is replaced by the
text of the next argument; `none` when a placeholder has no argument left or
does not accept its argument, or when arguments are left over. -/
def substitute : List Piece → List GoValue → Option GoString
  | [], [] => some []
  | [], _ :: _ => none
  | Piece.text c :: ps, a => (substitute ps a).map (c :: ·)
  | Piece.percent :: ps, a => (substitute ps a).map ('%' :: ·)
  | Piece.placeholder _ :: _, [] => none
  | Piece.placeholder verb :: ps, arg :: more =>
    if accepts verb arg then (substitute ps more).map (display verb arg ++ ·) else none

/-- The standard positional formatter of the specification: the template is
cut into its pieces and the arguments are substituted positionally. It is
defined exactly on the templates and arguments that are well-formed
together. -/
def specFormat (t : GoString) (a : List GoValue) : Option GoString :=
  (pieces t).bind fun ps => substitute ps a

/-- A template and an argument sequence are well-formed together. -/
def wellFormed (t : GoString) (a : List GoValue) : Bool :=
  (specFormat t a).isSome

/-! ## Lemmas on the formatter -/

theorem str_eq_defaultFormat (a : GoValue) : str a = defaultFormat a := by
  cases a <;> simp [str, printArg, defaultFormat]

theorem doPrintf_error_format (m : GoString) :
    doPrintf "ERROR: %s".toList [GoValue.string m] = some ("ERROR: ".toList ++ m) := by
  simp [doPrintf, doPrintfLoop, emit, printArg, modelledVerb]

theorem Sprintf_error_format (lib : Unmodelled) (m : GoString) :
    Sprintf lib "ERROR: %s".toList [GoValue.string m] = "ERROR: ".toList ++ m := by
  unfold Sprintf
  rw [doPrintf_error_format]

/-- The loop of `doPrintln` started after the first argument only appends to
the buffer. -/
theorem doPrintlnLoop_succ (k : Nat) (more : List GoValue) (buf : GoString) :
    doPrintlnLoop (k + 1) more buf = buf ++ doPrintlnLoop (k + 1) more [] := by
  induction more generalizing k buf with
  | nil => simp [doPrintlnLoop]
  | cons a more ih =>
    simp only [doPrintlnLoop, Nat.succ_pos, if_true, gt_iff_lt, Nat.zero_lt_succ]
    rw [ih (k + 1) (buf ++ [' '] ++ printArg a 'v'), ih (k + 1) ([] ++ [' '] ++ printArg a 'v')]
    simp

/-- The output of `doPrintln` is the line of the specification. -/
theorem doPrintln_eq_specLine (args : List GoValue) : doPrintln args = specLine args := by
  cases args with
  | nil => rfl
  | cons a more =>
    have key : ∀ (k : Nat) (b : GoValue) (l : List GoValue),
        str b ++ doPrintlnLoop (k + 1) l [] = joinBySpace ((b :: l).map str) := by
      intro k b l
      induction l generalizing k b with
      | nil => simp [doPrintlnLoop, joinBySpace, List.intercalate]
      | cons c l ih =>
        have h := ih (k + 1) c
        simp only [doPrintlnLoop, Nat.succ_pos, if_true, gt_iff_lt, Nat.zero_lt_succ]
        rw [doPrintlnLoop_succ]
        simp only [joinBySpace, List.intercalate, List.map_cons, List.intersperse_cons_cons,
          List.flatten_cons] at h ⊢
        rw [← h]
        simp [str]
    simp only [doPrintln, specLine, doPrintlnLoop]
    rw [doPrintlnLoop_succ]
    have h := key 0 a more
    rw [← h]
    simp [str]

/-- A character other than `%` is copied to the output. -/
theorem doPrintfLoop_literal (c : Char) (hc : c ≠ '%') (t : GoString) (a : List GoValue) :
    doPrintfLoop (c :: t) a = emit [c] (doPrintfLoop t a) := by
  cases t with
  | nil => simp [doPrintfLoop, emit, hc]
  | cons d t => simp [doPrintfLoop, hc]

/-- A modelled verb prints the next argument. -/
theorem doPrintfLoop_verb (verb : Char) (hv : modelledVerb verb = true) (rest : GoString)
    (arg : GoValue) (more : List GoValue) :
    doPrintfLoop ('%' :: verb :: rest) (arg :: more) =
      emit (printArg arg verb) (doPrintfLoop rest more) := by
  have hne : verb ≠ '%' := by
    intro h
    rw [h] at hv
    exact absurd hv (by decide)
  simp [doPrintfLoop, hne, hv]

theorem defaultTemplate_succ_succ (n : Nat) :
    defaultTemplate (n + 2) = '%' :: 'v' :: ' ' :: defaultTemplate (n + 1) := by
  simp [defaultTemplate, joinBySpace, List.intercalate, List.replicate_succ]

theorem specLine_cons_cons (a b : GoValue) (l : List GoValue) :
    specLine (a :: b :: l) = str a ++ ' ' :: specLine (b :: l) := by
  simp [specLine, joinBySpace, List.intercalate]

/-- On the template of default placeholders, the format loop writes the line
of the specification and uses every argument. -/
theorem doPrintfLoop_defaultTemplate (a : GoValue) (more : List GoValue) :
    doPrintfLoop (defaultTemplate (more.length + 1)) (a :: more) =
      some (specLine (a :: more), []) := by
  induction more generalizing a with
  | nil =>
    simp [defaultTemplate, joinBySpace, List.intercalate, doPrintfLoop, emit, modelledVerb,
      specLine, str]
  | cons b l ih =>
    rw [List.length_cons, defaultTemplate_succ_succ,
      doPrintfLoop_verb 'v' (by decide), doPrintfLoop_literal ' ' (by decide), ih b,
      specLine_cons_cons]
    simp [emit, str]

theorem doPrintf_defaultTemplate (args : List GoValue) :
    doPrintf (defaultTemplate args.length) args = some (doPrintln args) := by
  cases args with
  | nil => rfl
  | cons a more =>
    rw [doPrintln_eq_specLine]
    simp [doPrintf, doPrintfLoop_defaultTemplate]

theorem printArg_of_accepts (verb : Char) (arg : GoValue) (hv : modelledVerb verb = true)
    (h : accepts verb arg = true) : printArg arg verb = display verb arg := by
  simp only [modelledVerb, Bool.or_eq_true, decide_eq_true_eq] at hv
  rcases hv with (((rfl | rfl) | rfl) | rfl) | rfl <;> cases arg <;>
    first
    | rfl
    | simp [accepts] at h

/-- On a well-formed pair the format loop writes the positional
substitution and uses every argument. -/
theorem doPrintfLoop_of_substitute (t : GoString) (a : List GoValue) :
    ∀ (ps : List Piece) (out : GoString), pieces t = some ps → substitute ps a = some out →
      doPrintfLoop t a = some (out, []) := by
  induction t, a using doPrintfLoop.induct with
  | case1 a =>
    intro ps out hp hs
    simp only [pieces, Option.some.injEq] at hp
    subst hp
    cases a <;> simp_all [substitute, doPrintfLoop]
  | case2 a => intro ps out hp; simp [pieces] at hp
  | case3 c a hc =>
    intro ps out hp hs
    simp only [pieces, hc, if_false, Option.some.injEq] at hp
    subst hp
    cases a <;> simp_all [substitute, doPrintfLoop]
  | case4 c verb rest a hc ih =>
    intro ps out hp hs
    simp only [pieces, hc, ne_eq, not_false_eq_true, if_true, Option.map_eq_some'] at hp
    obtain ⟨ps1, hp1, rfl⟩ := hp
    simp only [substitute, Option.map_eq_some'] at hs
    obtain ⟨out1, hs1, rfl⟩ := hs
    rw [doPrintfLoop_literal c hc, ih ps1 out1 hp1 hs1]
    rfl
  | case5 c rest a hc ih =>
    intro ps out hp hs
    have hc2 : c = '%' := not_not.mp hc
    subst hc2
    simp only [pieces, ne_eq, not_true_eq_false, if_false, if_true,
      Option.map_eq_some'] at hp
    obtain ⟨ps1, hp1, rfl⟩ := hp
    simp only [substitute, Option.map_eq_some'] at hs
    obtain ⟨out1, hs1, rfl⟩ := hs
    simp [doPrintfLoop, ih ps1 out1 hp1 hs1, emit]
  | case6 c verb rest hc hv hm ih =>
    intro ps out hp hs
    have hc2 : c = '%' := not_not.mp hc
    subst hc2
    simp only [pieces, ne_eq, not_true_eq_false, if_false, hv, hm, if_true,
      Option.map_eq_some'] at hp
    obtain ⟨ps1, hp1, rfl⟩ := hp
    simp [substitute] at hs
  | case7 c verb rest hc hv hm arg more ih =>
    intro ps out hp hs
    have hc2 : c = '%' := not_not.mp hc
    subst hc2
    simp only [pieces, ne_eq, not_true_eq_false, if_false, hv, hm, if_true,
      Option.map_eq_some'] at hp
    obtain ⟨ps1, hp1, rfl⟩ := hp
    by_cases hacc : accepts verb arg = true
    · simp only [substitute, hacc, if_true, Option.map_eq_some'] at hs
      obtain ⟨out1, hs1, rfl⟩ := hs
      rw [doPrintfLoop_verb verb hm, ih ps1 out1 hp1 hs1, printArg_of_accepts verb arg hm hacc]
      rfl
    · simp [substitute, hacc] at hs
  | case8 c verb rest a hc hv hm =>
    intro ps out hp
    have hc2 : c = '%' := not_not.mp hc
    subst hc2
    simp [pieces, hv, hm] at hp

/-- On a well-formed pair the formatter produces the positional
substitution of the specification. -/
theorem doPrintf_of_specFormat (t : GoString) (a : List GoValue) (out : GoString)
    (h : specFormat t a = some out) : doPrintf t a = some out := by
  simp only [specFormat, Option.bind_eq_some] at h
  obtain ⟨ps, hp, hs⟩ := h
  simp [doPrintf, doPrintfLoop_of_substitute t a ps out hp hs]

/-- A format without `%` is well-formed with no arguments, and its
positional substitution is the format itself. -/
theorem specFormat_plain (t : GoString) (ht : '%' ∉ t) : specFormat t [] = some t := by
  have hp : pieces t = some (t.map Piece.text) := by
    induction t with
    | nil => rfl
    | cons c t ih =>
      have hc : c ≠ '%' := fun h => ht (by simp [h])
      have ht2 : '%' ∉ t := fun h => ht (List.mem_cons_of_mem c h)
      cases t with
      | nil => simp [pieces, hc]
      | cons d t => simp [pieces, hc, ih ht2]
  have hs : ∀ l : GoString, substitute (l.map Piece.text) [] = some l := by
    intro l
    induction l with
    | nil => rfl
    | cons c l ih => simp [substitute, ih]
  simp [specFormat, hp, hs]

/-- A text without a line terminator is not a complete line. -/
theorem isCompleteLine_of_not_mem (text : GoString) (h : '\n' ∉ text) :
    isCompleteLine text = false := by
  cases hl : text.getLast? with
  | none => simp [isCompleteLine, hl]
  | some c =>
    have hc : c ≠ '\n' := fun e => h (e ▸ List.mem_of_getLast?_eq_some hl)
    simp [isCompleteLine, hl, hc]

/-! ## The claims -/

/-- C1: for every non-nil error whose `Error()` text is `m`, whatever `m`
holds, `must` makes exactly one write to standard error, of the text
`"ERROR: "` followed by `m`: standard error ends in the state that this one
`Write` leaves, a recording standard error holds this one text after what it
held before, and the other streams are as they were. -/
theorem must_writes_error_text {σ ρ : Type} (lib : Unmodelled) (stderrFile : Writer σ)
    (p : Process σ ρ) (q : Process (List GoString) ρ) (m : GoString) :
    (must lib stderrFile (failure m) p).1.Stderr =
        (stderrFile.Write p.Stderr ("ERROR: ".toList ++ m)).dest ∧
      (must lib stderrFile (failure m) p).1.others = p.others ∧
      (must lib recorder (failure m) q).1.Stderr = q.Stderr ++ ["ERROR: ".toList ++ m] := by
  simp only [must, failure, Fprintf, Sprintf_error_format, recorder, and_self]

/-- C2: for the nil error `must` performs no write: every stream of the
process, standard error included, is exactly as before the call. -/
theorem must_nil_writes_nothing {σ ρ : Type} (lib : Unmodelled) (stderrFile : Writer σ)
    (p : Process σ ρ) :
    must lib stderrFile none p = (p, Completion.returned) := rfl

/-- C3: for a template `t` and arguments `a` that are well-formed together,
the positional substitution of the specification is defined and `fprintf`
makes exactly one write to `w`, of that text and nothing more (a recording
destination holds this one text after what it held before); the text is what
`Sprintf` produces. A template without placeholder markers is well-formed
with no arguments, and the text written for it is the template itself. -/
theorem fprintf_writes_formatted_text {σ : Type} (lib : Unmodelled) (w : Writer σ) (dest : σ)
    (calls : List GoString) (t : GoString) (a : List GoValue) (h : wellFormed t a = true) :
    (∃ out, specFormat t a = some out ∧ Sprintf lib t a = out ∧
        (fprintf lib w dest t a).1 = (w.Write dest out).dest ∧
        (fprintf lib recorder calls t a).1 = calls ++ [out]) ∧
      (∀ plain : GoString, '%' ∉ plain →
        wellFormed plain [] = true ∧
          (fprintf lib w dest plain []).1 = (w.Write dest plain).dest ∧
          (fprintf lib recorder calls plain []).1 = calls ++ [plain]) := by
  have key : ∀ (t0 : GoString) (a0 : List GoValue) (out : GoString),
      specFormat t0 a0 = some out → Sprintf lib t0 a0 = out := by
    intro t0 a0 out h0
    simp [Sprintf, doPrintf_of_specFormat t0 a0 out h0]
  constructor
  · obtain ⟨out, hout⟩ := Option.isSome_iff_exists.mp h
    have hs := key t a out hout
    exact ⟨out, hout, hs, by simp [fprintf, Fprintf, hs],
      by simp [fprintf, Fprintf, hs, recorder]⟩
  · intro plain hp
    have hs := key plain [] plain (specFormat_plain plain hp)
    exact ⟨by simp [wellFormed, specFormat_plain plain hp], by simp [fprintf, Fprintf, hs],
      by simp [fprintf, Fprintf, hs, recorder]⟩

/-- Witness of C3: the template `"n=%d %s%%"` with the arguments `7` and
`"ok"` is well-formed. -/
theorem fprintf_writes_formatted_text_witness :
    wellFormed "n=%d %s%%".toList [GoValue.int 7, GoValue.string "ok".toList] = true ∧
      ((∃ out, specFormat "n=%d %s%%".toList [GoValue.int 7, GoValue.string "ok".toList]
            = some out ∧
          Sprintf (fun _ _ => []) "n=%d %s%%".toList
            [GoValue.int 7, GoValue.string "ok".toList] = out ∧
          (fprintf (fun _ _ => []) bytesBuffer "> ".toList "n=%d %s%%".toList
            [GoValue.int 7, GoValue.string "ok".toList]).1
            = (bytesBuffer.Write "> ".toList out).dest ∧
          (fprintf (fun _ _ => []) recorder [] "n=%d %s%%".toList
            [GoValue.int 7, GoValue.string "ok".toList]).1 = [] ++ [out]) ∧
        (∀ plain : GoString, '%' ∉ plain →
          wellFormed plain [] = true ∧
            (fprintf (fun _ _ => []) bytesBuffer "> ".toList plain []).1
              = (bytesBuffer.Write "> ".toList plain).dest ∧
            (fprintf (fun _ _ => []) recorder [] plain []).1 = [] ++ [plain])) :=
  ⟨by decide, fprintf_writes_formatted_text (fun _ _ => []) bytesBuffer "> ".toList []
    "n=%d %s%%".toList [GoValue.int 7, GoValue.string "ok".toList] (by decide)⟩

/-- C4: `fprintln` makes exactly one write to `w`, of the string
representations of the arguments joined by exactly one space between each
adjacent pair and followed by exactly one `"\n"`; with `"x"` and `42` the text
is `"x 42\n"`, two strings are separated by a space as well, and with no
arguments the text is `"\n"`. -/
theorem fprintln_writes_spaced_line {σ : Type} (w : Writer σ) (dest : σ)
    (calls : List GoString) (args : List GoValue) :
    (fprintln w dest args).1 =
        (w.Write dest (List.intercalate [' '] (args.map str) ++ ['\n'])).dest ∧
      (fprintln recorder calls args).1 =
        calls ++ [List.intercalate [' '] (args.map str) ++ ['\n']] ∧
      (fprintln bytesBuffer [] [GoValue.string "x".toList, GoValue.int 42]).1 = "x 42\n".toList ∧
      (fprintln bytesBuffer [] [GoValue.string "x".toList, GoValue.string "y".toList]).1
        = "x y\n".toList ∧
      (fprintln bytesBuffer [] []).1 = "\n".toList := by
  have h : Sprintln args = List.intercalate [' '] (args.map str) ++ ['\n'] := by
    rw [Sprintln, doPrintln_eq_specLine]
    rfl
  refine ⟨by simp [fprintln, Fprintln, h], by simp [fprintln, Fprintln, h, recorder],
    by decide, by decide, by decide⟩

/-- C5: for a destination whose `Write` always returns an error, and every
template and argument sequence, `fmt.Fprintf` and `fmt.Fprintln` do return
that error, and `fprintf` and `fprintln` drop it: each returns the unit
value, the same as on a destination that accepts the write, and leaves the
destination as the one `Write` left it. -/
theorem write_error_is_discarded {σ : Type} (lib : Unmodelled) (w : Writer σ)
    (hw : ∀ (d : σ) (text : GoString), (w.Write d text).err ≠ none)
    (dest : σ) (format : GoString) (args : List GoValue) :
    (Fprintf lib w dest format args).err ≠ none ∧
      (Fprintln w dest args).err ≠ none ∧
      fprintf lib w dest format args = ((w.Write dest (Sprintf lib format args)).dest, ()) ∧
      fprintln w dest args = ((w.Write dest (Sprintln args)).dest, ()) ∧
      (fprintf lib w dest format args).2 = (fprintf lib bytesBuffer [] format args).2 ∧
      (fprintln w dest args).2 = (fprintln bytesBuffer [] args).2 :=
  ⟨hw _ _, hw _ _, rfl, rfl, rfl, rfl⟩

/-- Witness of C5: a closed file refuses every write. -/
theorem write_error_is_discarded_witness :
    (∀ (d : GoString) (text : GoString), (closedFile.Write d text).err ≠ none) ∧
      (Fprintf (fun _ _ => []) closedFile [] "%d items".toList [GoValue.int 3]).err ≠ none ∧
      (Fprintln closedFile [] [GoValue.int 3]).err ≠ none ∧
      fprintf (fun _ _ => []) closedFile [] "%d items".toList [GoValue.int 3] =
        ((closedFile.Write []
          (Sprintf (fun _ _ => []) "%d items".toList [GoValue.int 3])).dest, ()) ∧
      fprintln closedFile [] [GoValue.int 3] =
        ((closedFile.Write [] (Sprintln [GoValue.int 3])).dest, ()) ∧
      (fprintf (fun _ _ => []) closedFile [] "%d items".toList [GoValue.int 3]).2 =
        (fprintf (fun _ _ => []) bytesBuffer [] "%d items".toList [GoValue.int 3]).2 ∧
      (fprintln closedFile [] [GoValue.int 3]).2 = (fprintln bytesBuffer [] [GoValue.int 3]).2 :=
  ⟨fun _ _ => by simp [closedFile, failure],
    write_error_is_discarded (fun _ _ => []) closedFile (fun _ _ => by simp [closedFile, failure])
      [] "%d items".toList [GoValue.int 3]⟩

/-- Counterexample to C6: for the non-nil error that holds a nil
`*os.PathError`, whose `Error()` method panics, `must` does not return
normally: the panic reaches the caller, nothing is written to standard error,
and the result differs from the one `must` gives for the nil error. -/
theorem must_panics_when_Error_panics :
    nilPathError ≠ none ∧
      must (fun _ _ => []) bytesBuffer nilPathError
          ({ Stderr := [], others := () } : Process GoString Unit) =
        ({ Stderr := [], others := () }, Completion.panicked nilDereference) ∧
      (must (fun _ _ => []) bytesBuffer nilPathError
          ({ Stderr := [], others := () } : Process GoString Unit)).2 ≠ Completion.returned ∧
      (must (fun _ _ => []) bytesBuffer nilPathError
          ({ Stderr := [], others := () } : Process GoString Unit)).2 ≠
        (must (fun _ _ => []) bytesBuffer none
          ({ Stderr := [], others := () } : Process GoString Unit)).2 :=
  ⟨by decide, rfl, by decide, by decide⟩

/-- C6, amended: for the nil error and for every non-nil error whose
`Error()` method returns a message `m`, `must` returns normally to its
caller; for the non-nil error it makes the one diagnostic write and nothing
else, and leaves the other streams as they were. When standard error refuses
every write, `fmt.Fprintf` does return the error and `must` drops it: `must`
still returns normally, as for the nil error, and on a closed standard error
its whole result is the one it gives for the nil error. -/
theorem must_never_escalates {σ ρ : Type} (lib : Unmodelled) (stderrFile : Writer σ)
    (m : GoString) (p : Process σ ρ) (q : Process GoString ρ) :
    must lib stderrFile none p = (p, Completion.returned) ∧
      must lib stderrFile (failure m) p =
        ({ Stderr := (stderrFile.Write p.Stderr ("ERROR: ".toList ++ m)).dest,
           others := p.others }, Completion.returned) ∧
      ((∀ (d : σ) (text : GoString), (stderrFile.Write d text).err ≠ none) →
        (Fprintf lib stderrFile p.Stderr "ERROR: %s".toList [GoValue.string m]).err ≠ none ∧
          (must lib stderrFile (failure m) p).2 = (must lib stderrFile none p).2) ∧
      (∀ (d : GoString) (text : GoString), (closedFile.Write d text).err ≠ none) ∧
      must lib closedFile (failure m) q = must lib closedFile none q := by
  refine ⟨rfl, ?_, ?_, ?_, rfl⟩
  · simp only [must, failure, Fprintf, Sprintf_error_format]
  · intro hw
    exact ⟨hw _ _, rfl⟩
  · intro d text
    simp [closedFile, failure]

/-- Counterexample to C8: for the error with message `"boom"`, which holds no
line terminator, `must` writes `"ERROR: boom"` to standard error, and this
text is not a complete line: it does not end with a line terminator. -/
theorem must_text_is_not_a_line :
    '\n' ∉ "boom".toList ∧
      (must (fun _ _ => []) bytesBuffer (failure "boom".toList)
        ({ Stderr := [], others := () } : Process GoString Unit)).1.Stderr
        = "ERROR: boom".toList ∧
      isCompleteLine (must (fun _ _ => []) bytesBuffer (failure "boom".toList)
        ({ Stderr := [], others := () } : Process GoString Unit)).1.Stderr = false ∧
      (must (fun _ _ => []) bytesBuffer (failure "boom".toList)
        ({ Stderr := [], others := () } : Process GoString Unit)).1.Stderr.getLast?
        ≠ some '\n' := by
  decide

/-- C8, amended: for every non-nil error whose message `m` holds no line
terminator, the text `must` writes to standard error is `"ERROR: "` followed
by `m`; it holds no line terminator at all, so it is not a complete line, and
what is written to standard error next follows it on the same line. -/
theorem must_text_has_no_terminator {ρ : Type} (lib : Unmodelled) (m : GoString)
    (hm : '\n' ∉ m) (o : ρ) (next : GoString) :
    (must lib bytesBuffer (failure m) { Stderr := [], others := o }).1.Stderr
        = "ERROR: ".toList ++ m ∧
      '\n' ∉ (must lib bytesBuffer (failure m) { Stderr := [], others := o }).1.Stderr ∧
      isCompleteLine (must lib bytesBuffer (failure m) { Stderr := [], others := o }).1.Stderr
        = false ∧
      (bytesBuffer.Write (must lib bytesBuffer (failure m) { Stderr := [], others := o }).1.Stderr
        next).dest = "ERROR: ".toList ++ m ++ next := by
  have ht : (must lib bytesBuffer (failure m) { Stderr := [], others := o }).1.Stderr
      = "ERROR: ".toList ++ m := by
    simp only [must, failure, Fprintf, Sprintf_error_format, bytesBuffer, List.nil_append]
  have hn : '\n' ∉ "ERROR: ".toList ++ m := by
    intro hmem
    rcases List.mem_append.mp hmem with h1 | h2
    · exact absurd h1 (by decide)
    · exact hm h2
  rw [ht]
  exact ⟨rfl, hn, isCompleteLine_of_not_mem _ hn, rfl⟩

/-- Witness of C8, amended: the message `"boom"`. -/
theorem must_text_has_no_terminator_witness :
    '\n' ∉ "boom".toList ∧
      ((must (fun _ _ => []) bytesBuffer (failure "boom".toList)
          { Stderr := [], others := () }).1.Stderr = "ERROR: ".toList ++ "boom".toList ∧
        '\n' ∉ (must (fun _ _ => []) bytesBuffer (failure "boom".toList)
          { Stderr := [], others := () }).1.Stderr ∧
        isCompleteLine (must (fun _ _ => []) bytesBuffer (failure "boom".toList)
          { Stderr := [], others := () }).1.Stderr = false ∧
        (bytesBuffer.Write (must (fun _ _ => []) bytesBuffer (failure "boom".toList)
          { Stderr := [], others := () }).1.Stderr "next".toList).dest
          = "ERROR: ".toList ++ "boom".toList ++ "next".toList) :=
  ⟨by decide, must_text_has_no_terminator (fun _ _ => []) "boom".toList (by decide) ()
    "next".toList⟩

/-- C9: on a destination that is the byte sequence it has accepted, a call
of `fprintf`, of `fprintln`, or of `must` on standard error leaves the
content accepted before as a prefix and appends its own output; consecutive
calls concatenate their outputs in call order with nothing between them, and
`must` for `m1` followed by `must` for `m2` leaves `"ERROR: m1ERROR: m2"`. -/
theorem calls_append_to_destination {ρ : Type} (lib : Unmodelled) (content : GoString)
    (format format2 : GoString) (args args2 : List GoValue) (p : Process GoString ρ)
    (m1 m2 : GoString) :
    (fprintf lib bytesBuffer content format args).1 = content ++ Sprintf lib format args ∧
      (fprintln bytesBuffer content args).1 = content ++ Sprintln args ∧
      (must lib bytesBuffer (failure m1) p).1.Stderr = p.Stderr ++ ("ERROR: ".toList ++ m1) ∧
      (must lib bytesBuffer none p).1.Stderr = p.Stderr ∧
      (fprintf lib bytesBuffer (fprintf lib bytesBuffer content format args).1 format2 args2).1
        = content ++ Sprintf lib format args ++ Sprintf lib format2 args2 ∧
      (fprintln bytesBuffer (fprintln bytesBuffer content args).1 args2).1
        = content ++ Sprintln args ++ Sprintln args2 ∧
      (fprintln bytesBuffer (fprintf lib bytesBuffer content format args).1 args2).1
        = content ++ Sprintf lib format args ++ Sprintln args2 ∧
      (must lib bytesBuffer (failure m2) (must lib bytesBuffer (failure m1) p).1).1.Stderr
        = p.Stderr ++ ("ERROR: ".toList ++ m1) ++ ("ERROR: ".toList ++ m2) ∧
      (must lib bytesBuffer (failure "m2".toList)
          (must lib bytesBuffer (failure "m1".toList)
            { Stderr := [], others := p.others }).1).1.Stderr
        = "ERROR: m1ERROR: m2".toList := by
  simp only [must, failure, fprintf, fprintln, Fprintf, Fprintln, Sprintf_error_format,
    bytesBuffer,
    List.nil_append, true_and]
  decide

/-- C10: `fprintln` writes what `fprintf` writes with the template of as many
default placeholders `%v` as there are arguments, joined by single spaces and
followed by `"\n"` (for one argument or more, and for none as well); `must`
for a non-nil error writes to standard error what `fprintf` writes there with
the template `"ERROR: %s"` and the text of `err.Error()`. -/
theorem fprintln_agrees_with_fprintf {σ ρ : Type} (lib : Unmodelled) (w : Writer σ) (dest : σ)
    (args : List GoValue) (p : Process σ ρ) (m : GoString) :
    fprintln w dest args =
        fprintf lib w dest
          (List.intercalate " ".toList (List.replicate args.length "%v".toList) ++ "\n".toList)
          args ∧
      (must lib w (failure m) p).1.Stderr =
        (fprintf lib w p.Stderr "ERROR: %s".toList [GoValue.string m]).1 := by
  have h : Sprintf lib (defaultTemplate args.length) args = Sprintln args := by
    simp [Sprintf, doPrintf_defaultTemplate, Sprintln]
  refine ⟨?_, rfl⟩
  simp only [fprintln, fprintf, Fprintln, Fprintf]
  rw [← h]
  rfl

end XmluiMcp
